import Mathlib

/-!
Verification of the record generator in `src/hmmr/generate_data.py`
(the field sampler, size estimator, constraint-solving loop and record
assembler) against its natural-language specification.

Python strings are modelled as `List Char`, Python ints as `Int` (the
record index and other non-negative draws as `Nat`).  The implicit
global random source is made explicit: every `random.randint` /
`random.choice` / `random.uniform` draw becomes a field of a `Draws`
value, and the solver's per-iteration random field pick becomes a list
of natural numbers (an index into the current key list, taken modulo
its length).  The wall clock (`datetime.now()`) is a separate explicit
parameter `now`, measured in seconds.  The unbounded `while` loop of
`generate_data` is modelled by the function `solveLoop`, which consumes
one pick per iteration and returns `none` when the pick list is
exhausted before the loop guard becomes false; a run of the real loop
that terminates after `k` iterations corresponds to `solveLoop` on a
pick list of length at least `k`.
-/

namespace HMMR

set_option maxRecDepth 20000

/-- One decimal-formatted value, most significant digit first; models
Python's decimal rendering of a non-negative integer (as used by
f-strings, `str`, and `json.dumps`).  The first argument is fuel,
always called with fuel `n + 1` which is sufficient. -/
def natDecAux : Nat → Nat → List Char → List Char
  | 0, _, acc => acc
  | fuel + 1, n, acc =>
    if n < 10 then Nat.digitChar n :: acc
    else natDecAux fuel (n / 10) (Nat.digitChar (n % 10) :: acc)

/-- Decimal rendering of a natural number, e.g. `natDecRepr 120 = ['1','2','0']`. -/
def natDecRepr (n : Nat) : List Char :=
  natDecAux (n + 1) n []

/-- Python decimal rendering of an `int`, including a leading minus sign
for negative values (as produced by `json.dumps` for integer fields). -/
def intRepr (n : Int) : List Char :=
  if n < 0 then '-' :: natDecRepr n.natAbs else natDecRepr n.toNat

/-- A payload field value: Python's runtime distinction between `str`
and `int` values in the data dict (`isinstance(data[key], str)` /
`isinstance(data[key], int)`). -/
inductive Value where
  | str : List Char → Value
  | int : Int → Value
deriving DecidableEq, Repr

/-- The payload dict: an insertion-ordered mapping from field name to
value, as a Python `dict` is. -/
abbrev FieldMap := List (String × Value)

/-- Escape sequence of the form backslash-u-XXXX for a code unit `n < 0x10000`
(lowercase hex, as Python emits). -/
def uEscape (n : Nat) : List Char :=
  ['\\', 'u', Nat.digitChar (n / 4096 % 16), Nat.digitChar (n / 256 % 16),
   Nat.digitChar (n / 16 % 16), Nat.digitChar (n % 16)]

/-- How Python's `json.dumps` (default `ensure_ascii=True`) renders one
character inside a string literal: printable ASCII is kept, `"`, `\`
and the common control characters get two-character escapes, and
everything outside `0x20..0x7e` becomes `\uXXXX` (a surrogate pair for
characters beyond the BMP). -/
def escapeChar (c : Char) : List Char :=
  if c = '"' then ['\\', '"']
  else if c = '\\' then ['\\', '\\']
  else if c = '\n' then ['\\', 'n']
  else if c = '\t' then ['\\', 't']
  else if c = '\r' then ['\\', 'r']
  else if c = '\x08' then ['\\', 'b']
  else if c = '\x0c' then ['\\', 'f']
  else if 0x20 ≤ c.toNat ∧ c.toNat ≤ 0x7e then [c]
  else if c.toNat < 0x10000 then uEscape c.toNat
  else uEscape (0xd800 + (c.toNat - 0x10000) / 0x400) ++
       uEscape (0xdc00 + (c.toNat - 0x10000) % 0x400)

/-- A JSON string literal as `json.dumps` emits it. -/
def jsonStr (s : List Char) : List Char :=
  '"' :: (s.map escapeChar).flatten ++ ['"']

/-- A JSON value as `json.dumps` emits it. -/
def jsonVal : Value → List Char
  | .str s => jsonStr s
  | .int n => intRepr n

/-- One `"key": value` item, with the default key separator `": "`. -/
def jsonEntry (e : String × Value) : List Char :=
  jsonStr e.1.toList ++ [':', ' '] ++ jsonVal e.2

/-- Joins the rendered items with a separator, as the serializer's
`", ".join`-style concatenation does. -/
def joinWith (sep : List Char) : List (List Char) → List Char
  | [] => []
  | [x] => x
  | x :: xs => x ++ sep ++ joinWith sep xs

/-- Output of `json.dumps(record_data)` with Python's default options: insertion
key order, item separator `", "`, key separator `": "`, and
`ensure_ascii=True`. -/
def jsonDumps (m : FieldMap) : List Char :=
  '\x7b' :: joinWith [',', ' '] (m.map jsonEntry) ++ ['\x7d']

/-- The UTF-8 byte width of one character. -/
def charUtf8Size (c : Char) : Nat :=
  if c.toNat < 0x80 then 1
  else if c.toNat < 0x800 then 2
  else if c.toNat < 0x10000 then 3
  else 4

/-- UTF-8 byte length of a character sequence (`len(s.encode('utf-8'))`). -/
def utf8Len (l : List Char) : Nat :=
  (l.map charUtf8Size).sum

/-- Source function `calculate_data_size`: the payload is serialized by
`json.dumps` with default options and the UTF-8 byte length of the
result is returned. -/
def calculate_data_size (record_data : FieldMap) : Nat :=
  utf8Len (jsonDumps record_data)

/-- One mutation of the solver's loop body: shorten a string value by
one character (`data[key][:len(data[key]) - 1]`, which leaves an empty
string empty) or decrement an integer value by one (no floor). -/
def shrink : Value → Value
  | .str s => .str s.dropLast
  | .int n => .int (n - 1)

/-- One iteration of the loop body: `random.choice(list(data.keys()))`
is modelled by the pick `c`, interpreted as index `c % m.length` into
the key list, and that field's value is shrunk in place. -/
def mutate (m : FieldMap) (c : Nat) : FieldMap :=
  match m[c % m.length]? with
  | some (k, v) => m.set (c % m.length) (k, shrink v)
  | none => m

/-- The `while current_size > target_size` loop of `generate_data`:
the guard is checked before each iteration, one field is mutated per
iteration.  The pick list supplies the random field choices; `none`
means the list was exhausted while the guard still held (the real loop
would still be running after that many iterations). -/
def solveLoop (target : Int) : List Nat → FieldMap → Option FieldMap
  | [], m =>
    if (calculate_data_size m : Int) ≤ target then some m else none
  | c :: cs, m =>
    if (calculate_data_size m : Int) ≤ target then some m
    else solveLoop target cs (mutate m c)

/-- The explicit random draws consumed by one `generate_record` call,
in place of Python's implicit global `random` state.  Choice draws
(`activity`, `locIdx`) are indices into the respective choice lists,
taken modulo the list length; `tempWhole`/`tempTenth` are the integer
and first-decimal digits of `round(random.uniform(36.5, 37.5), 1)`. -/
structure Draws where
  heart_rate : Nat
  systolic : Nat
  diastolic : Nat
  oxygen : Nat
  respiratory : Nat
  steps : Nat
  activity : Nat
  sleep : Nat
  glucose : Nat
  tempWhole : Nat
  tempTenth : Nat
  deviceNum : Nat
  tsDays : Nat
  tsHours : Nat
  tsMinutes : Nat
  tsSeconds : Nat
  locIdx : Nat
  solverChoices : List Nat

/-- The fresh nine-field payload built at the top of `generate_data`,
with each sampled value formatted exactly as in the source. -/
def sampled_data (g : Draws) : FieldMap :=
  [ ("heart_rate", .str (natDecRepr g.heart_rate ++ " bpm".toList)),
    ("blood_pressure", .str (natDecRepr g.systolic ++ "/".toList ++
        natDecRepr g.diastolic ++ " mmHg".toList)),
    ("oxygen_saturation", .str (natDecRepr g.oxygen ++ "%".toList)),
    ("respiratory_rate", .str (natDecRepr g.respiratory ++ " breaths/min".toList)),
    ("steps", .int g.steps),
    ("activity_level", .str
        ((["Sedentary", "Light", "Moderate", "Intense"].getD (g.activity % 4) "").toList)),
    ("sleep_duration", .str (natDecRepr g.sleep ++ " hours".toList)),
    ("glucose_level", .str (natDecRepr g.glucose ++ " mg/dL".toList)),
    ("temperature", .str (natDecRepr g.tempWhole ++ '.' ::
        Nat.digitChar g.tempTenth :: "°C".toList)) ]

/-- Source function `generate_data(target_size)`: sample a fresh payload, then run the
size-convergence loop on it. -/
def generate_data (g : Draws) (target : Int) : Option FieldMap :=
  solveLoop target g.solverChoices (sampled_data g)

/-- Source function `generate_patient_id(i)`, i.e. `f"P{i:05d}"`: the letter `P`
followed by the decimal digits of `i` left-padded with `0` to width 5. -/
def generate_patient_id (i : Nat) : String :=
  ⟨'P' :: (List.replicate (5 - (natDecRepr i).length) '0' ++ natDecRepr i)⟩

/-- Source function `generate_device_id`: `"D"` followed by the drawn five-digit number. -/
def generate_device_id (g : Draws) : String :=
  ⟨'D' :: natDecRepr g.deviceNum⟩

/-- Source function `random_timestamp()`: the current wall-clock time minus a delta of
`d` days, `h` hours, `m` minutes and `s` seconds, where the source
draws `d = randint(0, 30)`, `h = randint(0, 23)`, `m = randint(0, 59)`,
`s = randint(0, 59)`.  Times are in seconds; the `strftime` formatting
(second resolution) is left implicit. -/
def random_timestamp (now : Int) (d h m s : Nat) : Int :=
  now - (86400 * (d : Int) + 3600 * (h : Int) + 60 * (m : Int) + (s : Int))

/-- One generated record. -/
structure Record where
  patient_id : String
  device_id : String
  timestamp : Int
  data : FieldMap
  location : String
deriving DecidableEq, Repr

/-- Source function `generate_record(i, target_size)`: assembles the record, invoking
the solver with budget `target_size` minus the UTF-8 byte length of the
patient id.  `now` is the wall-clock reading taken by
`random_timestamp` during the call.  Returns `none` exactly when the
solver run does not terminate within its pick list (the real call
would not have returned). -/
def generate_record (g : Draws) (i : Nat) (target : Int) (now : Int) : Option Record :=
  match generate_data g (target - (utf8Len (generate_patient_id i).toList : Int)) with
  | none => none
  | some d => some
    { patient_id := generate_patient_id i
      device_id := generate_device_id g
      timestamp := random_timestamp now g.tsDays g.tsHours g.tsMinutes g.tsSeconds
      data := d
      location := ["Home", "Clinic", "Hospital"].getD (g.locIdx % 3) "" }


/-! ## Basic facts about the size estimator -/

theorem one_le_charUtf8Size (c : Char) : 1 ≤ charUtf8Size c := by
  unfold charUtf8Size
  split_ifs <;> omega

theorem utf8Len_cons (c : Char) (l : List Char) :
    utf8Len (c :: l) = charUtf8Size c + utf8Len l := by
  simp [utf8Len]

theorem utf8Len_append (l₁ l₂ : List Char) :
    utf8Len (l₁ ++ l₂) = utf8Len l₁ + utf8Len l₂ := by
  simp [utf8Len]

/-- Any serialized payload contains at least the two brace bytes, so the
estimated size is never below 2. -/
theorem two_le_calculate_data_size (m : FieldMap) : 2 ≤ calculate_data_size m := by
  unfold calculate_data_size jsonDumps
  have happ : utf8Len (('\x7b' :: joinWith [',', ' '] (m.map jsonEntry)) ++ ['\x7d']) =
      utf8Len ('\x7b' :: joinWith [',', ' '] (m.map jsonEntry)) + utf8Len ['\x7d'] := by
    simp [utf8Len]
    omega
  rw [happ, utf8Len_cons]
  have h1 : charUtf8Size '\x7b' = 1 := rfl
  have h2 : utf8Len ['\x7d'] = 1 := rfl
  omega

/-! ## Behaviour of the solver loop -/

theorem solveLoop_size_le (t : Int) (cs : List Nat) (m d : FieldMap)
    (h : solveLoop t cs m = some d) : (calculate_data_size d : Int) ≤ t := by
  induction cs generalizing m with
  | nil =>
    simp only [solveLoop] at h
    split at h
    · injection h with h
      subst h
      assumption
    · cases h
  | cons c cs ih =>
    simp only [solveLoop] at h
    split at h
    · injection h with h
      subst h
      assumption
    · exact ih _ h

theorem set_getElem?_self {α : Type} (l : List α) :
    ∀ (n : Nat) (a : α), l[n]? = some a → l.set n a = l := by
  induction l with
  | nil =>
    intro n a h
    simp at h
  | cons x xs ih =>
    intro n a h
    cases n with
    | zero =>
      simp at h
      simp [h]
    | succ n =>
      simp at h
      simp [ih n a h]

/-- One loop iteration only replaces a value in place: the key list is
untouched. -/
theorem mutate_map_fst (m : FieldMap) (c : Nat) :
    (mutate m c).map Prod.fst = m.map Prod.fst := by
  unfold mutate
  cases hg : m[c % m.length]? with
  | none => rfl
  | some kv =>
    obtain ⟨k, v⟩ := kv
    rw [List.map_set]
    apply set_getElem?_self
    rw [List.getElem?_map, hg]
    rfl

/-! ## Concrete inputs used by witnesses and counterexamples -/

/-- A concrete draw bundle with every draw inside the sampler's ranges:
heart rate 72, blood pressure 120/80, oxygen 97, respiration 16,
steps 5000, activity pick 1 (Light), sleep 7, glucose 90, temperature
36.9, device number 54321, timestamp delta 3 days 04:05:06, location
pick 1 (Clinic), and an empty solver pick list. -/
def G0 : Draws := ⟨72, 120, 80, 97, 16, 5000, 1, 7, 90, 36, 9, 54321, 3, 4, 5, 6, 1, []⟩

/-- The record assembled from `G0` at index 1, target 870, clock 0. -/
def R0 : Record :=
  { patient_id := generate_patient_id 1
    device_id := generate_device_id G0
    timestamp := random_timestamp 0 3 4 5 6
    data := sampled_data G0
    location := "Clinic" }

/-- A two-field payload used to exercise the solver loop on concrete
runs; its serialized form spans 19 bytes. -/
def smallData : FieldMap := [("s", .str "ab".toList), ("n", .int 0)]

/-! ## Claim theorems -/

/-- C1: with `target_size = 1` the solver neither raises an error nor
returns: the loop guard can never become false, because every encoded
payload takes at least the 2 brace bytes, so for every FieldMap and
every sequence of random field picks the `while` loop is still running
after all picks are consumed.  The code silently loops forever instead
of raising the `SizeConstraintUnsatisfiable` condition the claim
requires (spec §9 itself records the infinite loop as a defect). -/
theorem solveLoop_target_one_never_returns (cs : List Nat) (m : FieldMap) :
    solveLoop 1 cs m = none := by
  induction cs generalizing m with
  | nil =>
    have h := two_le_calculate_data_size m
    have hneg : ¬ ((calculate_data_size m : Int) ≤ 1) := by omega
    simp only [solveLoop, if_neg hneg]
  | cons c cs ih =>
    have h := two_le_calculate_data_size m
    have hneg : ¬ ((calculate_data_size m : Int) ≤ 1) := by omega
    simp only [solveLoop, if_neg hneg]
    exact ih (mutate m c)

/-- C3: whenever `generate_record` returns a record, the estimated size
of its payload is at most the overall target `T` minus the UTF-8 byte
length of the record's patient id, and the payload is exactly a solver
result for the budget `T - len(patient_id)` — the value
`generate_record` passes to `generate_data`. -/
theorem generate_record_size_contract (g : Draws) (i : Nat) (T now : Int) (r : Record)
    (h : generate_record g i T now = some r) :
    (calculate_data_size r.data : Int) ≤ T - (utf8Len r.patient_id.toList : Int) ∧
    generate_data g (T - (utf8Len (generate_patient_id i).toList : Int)) = some r.data := by
  unfold generate_record at h
  cases hd : generate_data g (T - (utf8Len (generate_patient_id i).toList : Int)) with
  | none =>
    rw [hd] at h
    cases h
  | some d =>
    rw [hd] at h
    injection h with h
    subst h
    refine ⟨?_, ?_⟩
    · show (calculate_data_size d : Int) ≤ T - (utf8Len (generate_patient_id i).toList : Int)
      exact solveLoop_size_le _ _ _ _ hd
    · rfl

/-- Witness for C3: the concrete record `R0` produced at index 1 with
target 870 satisfies the size contract. -/
theorem generate_record_size_contract_witness :
    (calculate_data_size R0.data : Int) ≤ 870 - (utf8Len R0.patient_id.toList : Int) ∧
    generate_data G0 (870 - (utf8Len (generate_patient_id 1).toList : Int)) = some R0.data :=
  generate_record_size_contract G0 1 870 0 R0 (by decide)

/-- C5: the solver is the identity on an already-satisfying payload:
if the estimated size is already ≤ the target, the loop guard fails on
entry and the input FieldMap is returned unchanged, whatever random
picks would have followed. -/
theorem solveLoop_identity_on_satisfying (t : Int) (cs : List Nat) (m : FieldMap)
    (h : (calculate_data_size m : Int) ≤ t) : solveLoop t cs m = some m := by
  cases cs <;> simp only [solveLoop, if_pos h]

/-- Witness for C5: a freshly sampled payload of 253 bytes is returned
unchanged for target 300. -/
theorem solveLoop_identity_witness :
    solveLoop 300 [0, 1, 2] (sampled_data G0) = some (sampled_data G0) :=
  solveLoop_identity_on_satisfying 300 [0, 1, 2] (sampled_data G0) (by decide)

/-- C10: the solver preserves the payload's keys: on any input FieldMap
on which it returns, the result carries exactly the same field names in
the same order, because each iteration overwrites one value in place
and never inserts or removes a key.  Applied to `generate_data`'s
nine-field input this returns the nine field names unchanged. -/
theorem solveLoop_preserves_keys (t : Int) (cs : List Nat) (m d : FieldMap)
    (h : solveLoop t cs m = some d) : d.map Prod.fst = m.map Prod.fst := by
  induction cs generalizing m with
  | nil =>
    simp only [solveLoop] at h
    split at h
    · injection h with h
      subst h
      rfl
    · cases h
  | cons c cs ih =>
    simp only [solveLoop] at h
    split at h
    · injection h with h
      subst h
      rfl
    · rw [ih _ h, mutate_map_fst]

/-- Witness for C10: a three-iteration run that empties the string
field and decrements the integer field leaves the key list `[s, n]`
unchanged. -/
theorem solveLoop_preserves_keys_witness :
    ([("s", Value.str []), ("n", Value.int (-1))] : FieldMap).map Prod.fst =
      smallData.map Prod.fst :=
  solveLoop_preserves_keys 18 [1, 0, 0] smallData
    [("s", Value.str []), ("n", Value.int (-1))] (by decide)


/-- A two-field payload whose first field is already an empty string:
the shape the solver reaches once a string field has been fully
truncated.  Its serialized form spans 20 bytes. -/
def inertData : FieldMap := [("a", .str []), ("b", .str "xx".toList)]

/-- Tests whether some field of a payload holds a negative integer. -/
def hasNegativeField (m : FieldMap) : Bool :=
  m.any fun e =>
    match e.2 with
    | .int n => decide (n < 0)
    | .str _ => false

/-- C2: refuted on the code.  For `inertData` (20 bytes) and the
satisfiable target 19, one iteration shrinking field `b` suffices, so
the claimed bound (initial size minus target) is one step; but the code
never excludes fields that can shrink no further, so picks selecting
the empty string `a` are no-ops and after five iterations the loop is
still running.  The claim's exclusion mechanism (spec §4.3 point 2)
does not exist in the code. -/
theorem solver_bounded_termination_fails :
    calculate_data_size inertData = 20 ∧
    solveLoop 19 [1] inertData = some [("a", Value.str []), ("b", Value.str ['x'])] ∧
    solveLoop 19 [0, 0, 0, 0, 0] inertData = none := by
  refine ⟨by decide, by decide, by decide⟩

/-- C4: refuted on the code.  Starting from a payload whose integer
field `n` is 0 (19 bytes) with target 18, the loop first picks `n`,
decrementing it to -1 (there is no clamp at 0), then empties the string
field until the target is met: the solver returns successfully with a
negative field value, violating the claimed output guarantee. -/
theorem solver_returns_negative_field :
    solveLoop 18 [1, 0, 0] smallData =
      some [("s", Value.str []), ("n", Value.int (-1))] ∧
    hasNegativeField [("s", Value.str []), ("n", Value.int (-1))] = true := by
  refine ⟨by decide, by decide⟩

/-- C6 counterexample: with the delta draw of 30 days, 23 hours,
59 minutes, 59 seconds — every component inside its `randint` range —
the produced timestamp is 86399 seconds older than `now - 30 days`,
refuting the claimed lower bound `now - 30 days`. -/
theorem random_timestamp_below_thirty_days :
    random_timestamp 0 30 23 59 59 < 0 - 86400 * 30 := by decide

/-- C6 (amended): the timestamp always lies in the closed interval
from `now` minus 30 days 23:59:59 (2678399 seconds) to `now`: it is
never in the future, and never more than 2678399 seconds in the past. -/
theorem random_timestamp_range (now : Int) (d h m s : Nat)
    (hd : d ≤ 30) (hh : h ≤ 23) (hm : m ≤ 59) (hs : s ≤ 59) :
    now - 2678399 ≤ random_timestamp now d h m s ∧
    random_timestamp now d h m s ≤ now := by
  unfold random_timestamp
  omega

/-- Witness for C6 (amended): the delta 3 days 04:05:06 lands inside
the interval. -/
theorem random_timestamp_range_witness :
    (0 : Int) - 2678399 ≤ random_timestamp 0 3 4 5 6 ∧
    random_timestamp 0 3 4 5 6 ≤ 0 :=
  random_timestamp_range 0 3 4 5 6 (by decide) (by decide) (by decide) (by decide)

/-- C8 counterexample: identical seeded draws (`G0`), identical index 1
and identical target 870, but two calls at wall-clock instants one
minute apart produce different records — the timestamp comes from
`datetime.now()`, which is not part of the seeded random state, so seed
plus index plus target do not determine the record. -/
theorem generate_record_not_seed_deterministic :
    generate_record G0 1 870 0 ≠ generate_record G0 1 870 60 := by decide

/-- C8 (amended): record generation is deterministic given the random
draws and the generation instant: two calls with equal draw bundles,
equal index, equal target and equal clock reading produce identical
records, all fields included. -/
theorem generate_record_deterministic (g g' : Draws) (i : Nat) (T now T' now' : Int)
    (hg : g = g') (hT : T = T') (hnow : now = now') :
    generate_record g i T now = generate_record g' i T' now' := by
  subst hg hT hnow
  rfl

/-- Witness for C8 (amended): two identically-parameterized calls at
clock 0 agree. -/
theorem generate_record_deterministic_witness :
    generate_record G0 1 870 0 = generate_record G0 1 870 0 :=
  generate_record_deterministic G0 G0 1 870 0 870 0 rfl rfl rfl


/-! ## Decoding decimal digit strings (for C7) -/

/-- Reads a digit string back into a number, starting from accumulator
`a`; leading `0` characters leave the value unchanged. -/
def decDecode (a : Nat) (l : List Char) : Nat :=
  l.foldl (fun acc c => 10 * acc + (c.toNat - 48)) a

theorem digitChar_toNat (n : Nat) (h : n < 10) : (Nat.digitChar n).toNat = 48 + n := by
  interval_cases n <;> rfl

theorem decDecode_natDecAux : ∀ (f n : Nat) (acc : List Char), n < f →
    decDecode 0 (natDecAux f n acc) = decDecode n acc := by
  intro f
  induction f with
  | zero =>
    intro n acc h
    omega
  | succ f ih =>
    intro n acc h
    by_cases h10 : n < 10
    · simp only [natDecAux, if_pos h10, decDecode, List.foldl]
      have hs : 10 * 0 + ((Nat.digitChar n).toNat - 48) = n := by
        rw [digitChar_toNat n h10]
        omega
      rw [hs]
    · simp only [natDecAux, if_neg h10]
      rw [ih (n / 10) _ (by omega)]
      simp only [decDecode, List.foldl]
      have hs : 10 * (n / 10) + ((Nat.digitChar (n % 10)).toNat - 48) = n := by
        rw [digitChar_toNat (n % 10) (Nat.mod_lt _ (by omega))]
        omega
      rw [hs]

/-- Decoding inverts the decimal rendering. -/
theorem decDecode_natDecRepr (n : Nat) : decDecode 0 (natDecRepr n) = n := by
  unfold natDecRepr
  rw [decDecode_natDecAux (n + 1) n [] (by omega)]
  rfl

/-- Left-padding with `0` characters does not change the decoded value. -/
theorem decDecode_replicate_zero (k : Nat) (l : List Char) :
    decDecode 0 (List.replicate k '0' ++ l) = decDecode 0 l := by
  induction k with
  | zero => rfl
  | succ k ih =>
    simp only [List.replicate, List.cons_append, decDecode, List.foldl]
    exact ih

/-- C7: `patient_id` is a deterministic, injective function of the
record index — distinct indices always give distinct ids, since the id
decodes back to the index — and index 1 yields exactly `"P00001"`. -/
theorem generate_patient_id_injective :
    Function.Injective generate_patient_id ∧ generate_patient_id 1 = "P00001" := by
  constructor
  · intro i j hij
    have hdata : ('P' :: (List.replicate (5 - (natDecRepr i).length) '0' ++ natDecRepr i)) =
        ('P' :: (List.replicate (5 - (natDecRepr j).length) '0' ++ natDecRepr j)) :=
      congrArg String.data hij
    have h2 : List.replicate (5 - (natDecRepr i).length) '0' ++ natDecRepr i =
        List.replicate (5 - (natDecRepr j).length) '0' ++ natDecRepr j := by
      injection hdata
    calc i = decDecode 0 (List.replicate (5 - (natDecRepr i).length) '0' ++ natDecRepr i) := by
            rw [decDecode_replicate_zero, decDecode_natDecRepr]
      _ = decDecode 0 (List.replicate (5 - (natDecRepr j).length) '0' ++ natDecRepr j) := by
            rw [h2]
      _ = j := by
            rw [decDecode_replicate_zero, decDecode_natDecRepr]
  · decide

/-- Witness for C7: the injectivity half applied at index 5. -/
theorem generate_patient_id_injective_witness : (5 : Nat) = 5 :=
  generate_patient_id_injective.1
    (show generate_patient_id 5 = generate_patient_id 5 from rfl)

/-! ## The size estimator versus the canonical compact encoding (C9) -/

/-- Follows the spec's words (section 4.2 / claim C9): the canonical
compact encoding — deterministic (insertion) key order, no extraneous
whitespace (separators `","` and `":"`), UTF-8 byte counting of the
field values, with only the JSON-mandatory escapes. -/
def canonicalEscape (c : Char) : List Char :=
  if c = '"' then ['\\', '"']
  else if c = '\\' then ['\\', '\\']
  else if c.toNat < 0x20 then uEscape c.toNat
  else [c]

/-- Canonical compact rendering of a string literal (raw UTF-8, no
ASCII-escaping of multi-byte characters). -/
def canonicalStr (s : List Char) : List Char :=
  '"' :: (s.map canonicalEscape).flatten ++ ['"']

/-- Canonical compact rendering of a value. -/
def canonicalVal : Value → List Char
  | .str s => canonicalStr s
  | .int n => intRepr n

/-- Canonical compact rendering of a payload, per the spec's words. -/
def canonicalDumps (m : FieldMap) : List Char :=
  '\x7b' :: joinWith [','] (m.map fun e => canonicalStr e.1.toList ++ [':'] ++ canonicalVal e.2)
    ++ ['\x7d']

/-- Byte length of the canonical compact encoding, the quantity claim
C9 says the estimator returns. -/
def canonical_encoded_size (m : FieldMap) : Nat :=
  utf8Len (canonicalDumps m)

/-- A single-field payload with the sampler's temperature shape. -/
def tempOnly : FieldMap := [("temperature", .str "37.0°C".toList)]

/-- C9 counterexample: the source estimator serializes with default
`json.dumps` options — a space after every colon and comma, and `°`
escaped as the six ASCII bytes of its backslash-u form — so on
`tempOnly` it counts 30 bytes where the canonical compact UTF-8
encoding of the claim has 25 (there `°` contributes its 2 UTF-8
bytes). -/
theorem calculate_data_size_not_canonical :
    calculate_data_size tempOnly ≠ canonical_encoded_size tempOnly ∧
    calculate_data_size tempOnly = 30 ∧
    canonical_encoded_size tempOnly = 25 := by
  refine ⟨by decide, by decide, by decide⟩

/-- Per-character byte cost of the default `json.dumps` string
escaping: 2 for the short escapes, 1 for other printable ASCII, 6 for
the backslash-u form, 12 for a surrogate pair. -/
def escSize (c : Char) : Nat :=
  if c = '"' ∨ c = '\\' ∨ c = '\n' ∨ c = '\t' ∨ c = '\r' ∨ c = '\x08' ∨ c = '\x0c' then 2
  else if 0x20 ≤ c.toNat ∧ c.toNat ≤ 0x7e then 1
  else if c.toNat < 0x10000 then 6
  else 12

/-- Byte cost of a value under the default encoding: a quoted escaped
string, or the decimal digit count of an integer (plus a sign byte when
negative). -/
def defaultValSize : Value → Nat
  | .str s => 2 + (s.map escSize).sum
  | .int n => if n < 0 then 1 + (Nat.log 10 n.natAbs + 1) else Nat.log 10 n.toNat + 1

/-- Byte cost of one `"key": value` item under the default encoding:
quoted escaped key, the two `": "` bytes, and the value. -/
def defaultEntrySize (e : String × Value) : Nat :=
  2 + (e.1.toList.map escSize).sum + 2 + defaultValSize e.2

/-- Follows the amended claim's words: the byte length of the
Python-default JSON encoding — two brace bytes, two separator bytes
(`", "`) between consecutive items, and each item costing its key,
`": "` and value bytes. -/
def default_encoded_size (m : FieldMap) : Nat :=
  2 + (m.map defaultEntrySize).sum + 2 * (m.length - 1)

theorem charUtf8Size_digitChar (k : Nat) (h : k < 16) :
    charUtf8Size (Nat.digitChar k) = 1 := by
  interval_cases k <;> decide

theorem utf8Len_uEscape (n : Nat) : utf8Len (uEscape n) = 6 := by
  have h1 : charUtf8Size '\\' = 1 := rfl
  have h2 : charUtf8Size 'u' = 1 := rfl
  have d1 := charUtf8Size_digitChar (n / 4096 % 16) (Nat.mod_lt _ (by omega))
  have d2 := charUtf8Size_digitChar (n / 256 % 16) (Nat.mod_lt _ (by omega))
  have d3 := charUtf8Size_digitChar (n / 16 % 16) (Nat.mod_lt _ (by omega))
  have d4 := charUtf8Size_digitChar (n % 16) (Nat.mod_lt _ (by omega))
  simp [uEscape, utf8Len, h1, h2, d1, d2, d3, d4]

theorem utf8Len_escapeChar (c : Char) : utf8Len (escapeChar c) = escSize c := by
  by_cases h1 : c = '"'
  · subst h1
    decide
  by_cases h2 : c = '\\'
  · subst h2
    decide
  by_cases h3 : c = '\n'
  · subst h3
    decide
  by_cases h4 : c = '\t'
  · subst h4
    decide
  by_cases h5 : c = '\r'
  · subst h5
    decide
  by_cases h6 : c = '\x08'
  · subst h6
    decide
  by_cases h7 : c = '\x0c'
  · subst h7
    decide
  unfold escapeChar escSize
  rw [if_neg h1, if_neg h2, if_neg h3, if_neg h4, if_neg h5, if_neg h6, if_neg h7,
    if_neg (show ¬(c = '"' ∨ c = '\\' ∨ c = '\n' ∨ c = '\t' ∨ c = '\r' ∨ c = '\x08' ∨ c = '\x0c')
      by tauto)]
  by_cases hp : 0x20 ≤ c.toNat ∧ c.toNat ≤ 0x7e
  · rw [if_pos hp, if_pos hp]
    have hc : charUtf8Size c = 1 := by
      unfold charUtf8Size
      rw [if_pos (by omega)]
    simp [utf8Len, hc]
  · rw [if_neg hp, if_neg hp]
    by_cases hb : c.toNat < 0x10000
    · rw [if_pos hb, if_pos hb, utf8Len_uEscape]
    · rw [if_neg hb, if_neg hb, utf8Len_append, utf8Len_uEscape, utf8Len_uEscape]

theorem utf8Len_natDecAux : ∀ (f n : Nat) (acc : List Char), n < f →
    utf8Len (natDecAux f n acc) = Nat.log 10 n + 1 + utf8Len acc := by
  intro f
  induction f with
  | zero =>
    intro n acc h
    omega
  | succ f ih =>
    intro n acc h
    by_cases h10 : n < 10
    · have hd := charUtf8Size_digitChar n (by omega)
      simp only [natDecAux, if_pos h10, utf8Len_cons, hd]
      have hlog : Nat.log 10 n = 0 := by
        rw [Nat.log_eq_zero_iff]
        omega
      omega
    · have hd := charUtf8Size_digitChar (n % 10) (by omega)
      simp only [natDecAux, if_neg h10]
      rw [ih (n / 10) _ (by omega), utf8Len_cons, hd]
      have hlog : Nat.log 10 (n / 10) = Nat.log 10 n - 1 := Nat.log_div_base 10 n
      have hpos : 0 < Nat.log 10 n := Nat.log_pos (by omega) (by omega)
      omega

/-- Decimal rendering takes one byte per digit. -/
theorem utf8Len_natDecRepr (n : Nat) : utf8Len (natDecRepr n) = Nat.log 10 n + 1 := by
  unfold natDecRepr
  rw [utf8Len_natDecAux (n + 1) n [] (by omega)]
  simp [utf8Len]

theorem utf8Len_escaped (s : List Char) :
    utf8Len ((s.map escapeChar).flatten) = (s.map escSize).sum := by
  induction s with
  | nil => rfl
  | cons c cs ih =>
    simp only [List.map_cons, List.flatten_cons, utf8Len_append, utf8Len_escapeChar,
      List.sum_cons, ih]

theorem utf8Len_jsonStr (s : List Char) :
    utf8Len (jsonStr s) = 2 + (s.map escSize).sum := by
  unfold jsonStr
  rw [utf8Len_append, utf8Len_cons, utf8Len_escaped]
  have h1 : utf8Len ['"'] = 1 := rfl
  have h2 : charUtf8Size '"' = 1 := rfl
  omega

theorem utf8Len_jsonVal (v : Value) : utf8Len (jsonVal v) = defaultValSize v := by
  cases v with
  | str s => simp [jsonVal, defaultValSize, utf8Len_jsonStr]
  | int n =>
    simp only [jsonVal, defaultValSize, intRepr]
    split_ifs with h
    · rw [utf8Len_cons, utf8Len_natDecRepr]
      have hm : charUtf8Size '-' = 1 := rfl
      omega
    · exact utf8Len_natDecRepr _

theorem utf8Len_jsonEntry (e : String × Value) :
    utf8Len (jsonEntry e) = defaultEntrySize e := by
  unfold jsonEntry defaultEntrySize
  rw [utf8Len_append, utf8Len_append, utf8Len_jsonStr, utf8Len_jsonVal]
  have h2 : utf8Len [':', ' '] = 2 := rfl
  omega

theorem utf8Len_joinWith (sep : List Char) (l : List (List Char)) :
    utf8Len (joinWith sep l) = (l.map utf8Len).sum + utf8Len sep * (l.length - 1) := by
  induction l with
  | nil => simp [joinWith, utf8Len]
  | cons x xs ih =>
    cases xs with
    | nil => simp [joinWith, utf8Len]
    | cons y t =>
      rw [show joinWith sep (x :: y :: t) = (x ++ sep) ++ joinWith sep (y :: t) from rfl]
      rw [utf8Len_append, utf8Len_append, ih]
      simp only [List.map_cons, List.sum_cons, List.length_cons, Nat.add_sub_cancel]
      ring

/-- C9 (amended): the source estimator returns exactly the byte length
of the Python-default JSON encoding — insertion key order, `", "` and
`": "` separators and ASCII escaping of non-ASCII characters — as a
pure function of the FieldMap; it is the same estimator `solveLoop`
consults in its guard. -/
theorem calculate_data_size_eq_default (m : FieldMap) :
    calculate_data_size m = default_encoded_size m := by
  unfold calculate_data_size jsonDumps default_encoded_size
  have h3 : utf8Len ['\x7d'] = 1 := rfl
  have happ : utf8Len (('\x7b' :: joinWith [',', ' '] (m.map jsonEntry)) ++ ['\x7d']) =
      utf8Len ('\x7b' :: joinWith [',', ' '] (m.map jsonEntry)) + 1 := by
    rw [utf8Len_append, h3]
  rw [happ, utf8Len_cons, utf8Len_joinWith]
  have hmap : ∀ mm : FieldMap, (mm.map jsonEntry).map utf8Len = mm.map defaultEntrySize := by
    intro mm
    induction mm with
    | nil => rfl
    | cons e t ih => simp [utf8Len_jsonEntry, ih]
  rw [hmap m, List.length_map]
  have h1 : charUtf8Size '\x7b' = 1 := rfl
  have h2 : utf8Len [',', ' '] = 2 := rfl
  rw [h1, h2]
  omega

end HMMR
